import Mathlib

/-!
# Verification of the structural-extraction and diagram-rendering pipeline

This file gives a shallow embedding, in Lean 4, of the core pipeline of the
repository: the code parser (`app/parsers/code_parser.py`) and the diagram
generator (`app/diagrams/generator.py`).  Python dictionaries are modelled as
insertion-ordered association lists, Python regular-expression scans as
executable character-list scanners translated pattern by pattern, and machine
strings as Lean `String`/`List Char`.  All definitions are executable, and the
theorems at the end of the file settle the stated claims about the pipeline.

Conventions used throughout:
* a Python `dict` is a `List (key × value)` whose update keeps the position of
  an existing key (as CPython does) and appends new keys at the end;
* a Python `defaultdict(list)` append and `defaultdict(set)` add are the
  operations `multiAppend` and `setAdd` below;
* `re.finditer` is modelled by a fuel-driven scanner `scanWithF` that tries the
  translated pattern at every position, emits non-overlapping matches from left
  to right, and advances one character on failure, exactly as the CPython
  regex engine does for these patterns (none of which needs backtracking
  beyond the local cases analysed in the matcher comments);
* character classes are translated for ASCII text, which is the domain of all
  the concrete inputs considered here.
-/

namespace UnMessy

/-- Single quote character (written via its code point). -/
def sq : Char := Char.ofNat 39

/-- Double quote character (written via its code point). -/
def dq : Char := Char.ofNat 34

/-- Python regex class `\s` restricted to ASCII: space, tab, LF, CR, FF, VT. -/
def pyIsSpace (c : Char) : Bool :=
  c = ' ' || c = '\t' || c = '\n' || c = '\r' || c = Char.ofNat 11 || c = Char.ofNat 12

/-- Regex class `[a-z]`. -/
def isLowerAZ (c : Char) : Bool := 'a' ≤ c && c ≤ 'z'

/-- Regex class `[A-Z]`. -/
def isUpperAZ (c : Char) : Bool := 'A' ≤ c && c ≤ 'Z'

/-- Regex class `[0-9]`. -/
def isDigit09 (c : Char) : Bool := '0' ≤ c && c ≤ '9'

/-- Regex class `[a-zA-Z0-9_]` (also `\w` for ASCII text). -/
def isWordCh (c : Char) : Bool := isLowerAZ c || isUpperAZ c || isDigit09 c || c = '_'

/-- Regex class `['\"]`: either kind of quote. -/
def isQuoteCh (c : Char) : Bool := c = sq || c = dq

/-- Class of the first Python recognizer group, `[a-zA-Z0-9_.,\s]`. -/
def inClassPyImp1 (c : Char) : Bool := isWordCh c || c = '.' || c = ',' || pyIsSpace c

/-- Class of the module group of the `from ... import ...` recognizer, `[a-zA-Z0-9_.]`. -/
def inClassPyMod (c : Char) : Bool := isWordCh c || c = '.'

/-- Class of the second group of the `from ... import ...` recognizer, `[a-zA-Z0-9_.,\s*]`. -/
def inClassPyImp2 (c : Char) : Bool := isWordCh c || c = '.' || c = ',' || pyIsSpace c || c = '*'

/-- Class of the parent-list group of the Python class recognizer, `[a-zA-Z0-9_.,\s]`. -/
def inClassPyParents (c : Char) : Bool := isWordCh c || c = '.' || c = ',' || pyIsSpace c

/-- Match a literal character sequence at the head of the input and return the
remainder, or `none` when the literal is not a prefix. -/
def matchLit : List Char → List Char → Option (List Char)
  | [], cs => some cs
  | _ :: _, [] => none
  | l :: ls, c :: cs => if c = l then matchLit ls cs else none

/-- `str.strip()` of Python: remove leading and trailing whitespace. -/
def pyStrip (l : List Char) : List Char :=
  ((l.dropWhile pyIsSpace).reverse.dropWhile pyIsSpace).reverse

/-- `str.strip(" '\"")` of Python: remove leading and trailing spaces and quotes. -/
def pyStripQuotes (l : List Char) : List Char :=
  let f : Char → Bool := fun c => c = ' ' || isQuoteCh c
  ((l.dropWhile f).reverse.dropWhile f).reverse

/-- `str.split(sep)` of Python for a one-character separator (no collapsing,
empty fields preserved, the empty string splitting to one empty field). -/
def splitOnCh (sep : Char) : List Char → List (List Char)
  | [] => [[]]
  | c :: t =>
    let r := splitOnCh sep t
    if c = sep then [] :: r
    else
      match r with
      | h :: t2 => (c :: h) :: t2
      | [] => [[c]]

/-- Substring containment, `needle in hay` of Python. -/
def containsSub (needle : List Char) : List Char → Bool
  | [] => needle.isEmpty
  | c :: t => needle.isPrefixOf (c :: t) || containsSub needle t

/-- Fuel-driven translation of `re.finditer`: try the matcher at the current
position; on success emit the result and resume after the match, on failure
advance one character.  Every matcher below consumes at least one character on
success, so fuel `length + 1` (used by `reFindAll`) never runs out. -/
def scanWithF (m : List Char → Option (α × List Char)) : Nat → List Char → List α
  | 0, _ => []
  | n + 1, cs =>
    match m cs with
    | some (a, rest) => a :: scanWithF m n rest
    | none =>
      match cs with
      | [] => []
      | _ :: t => scanWithF m n t

/-- All matches of a translated pattern over the text, in source order. -/
def reFindAll (m : List Char → Option (α × List Char)) (cs : List Char) : List α :=
  scanWithF m (cs.length + 1) cs

/-- Python `dict` assignment `d[k] = v`: overwrite in place, else append. -/
def dictUpd {β : Type} : List (String × β) → String → β → List (String × β)
  | [], k, v => [(k, v)]
  | (k1, v1) :: rest, k, v =>
    if k1 = k then (k1, v) :: rest else (k1, v1) :: dictUpd rest k v

/-- Python `dict.get(k)`: the value of the (unique) binding of `k`, if any. -/
def lookupFst {β : Type} : List (String × β) → String → Option β
  | [], _ => none
  | (k1, v) :: rest, k => if k1 = k then some v else lookupFst rest k

/-- Python `defaultdict(list)`: `d[k].append(v)`. -/
def multiAppend {β : Type} : List (String × List β) → String → β → List (String × List β)
  | [], k, v => [(k, [v])]
  | (k1, vs) :: rest, k, v =>
    if k1 = k then (k1, vs ++ [v]) :: rest else (k1, vs) :: multiAppend rest k v

/-- Python `defaultdict(set)`: `d[k].add(v)`, the set modelled as a
duplicate-free list in insertion order (set iteration order in CPython is
hash-dependent; the properties proved below only concern membership). -/
def setAdd : List (String × List String) → String → String → List (String × List String)
  | [], k, v => [(k, [v])]
  | (k1, vs) :: rest, k, v =>
    if k1 = k then (k1, if v ∈ vs then vs else vs ++ [v]) :: rest
    else (k1, vs) :: setAdd rest k v

/-- Python `defaultdict(int)`: `d[k] += 1`. -/
def bumpCount : List (String × Nat) → String → List (String × Nat)
  | [], k => [(k, 1)]
  | (k1, n) :: rest, k =>
    if k1 = k then (k1, n + 1) :: rest else (k1, n) :: bumpCount rest k

/-- Lookup in a `defaultdict(list)` with the default `[]`. -/
def multiGet (m : List (String × List String)) (k : String) : List String :=
  (lookupFst m k).getD []

/-- Python list slicing `l[:k]` for an `int` bound `k` (a negative bound counts
from the end, clamped at zero). -/
def pySliceTo (l : List α) (k : Int) : List α :=
  if k < 0 then l.take ((l.length : Int) + k).toNat else l.take k.toNat

/-- One step of the stable descending insertion used to model the Python call
`sorted(items, key=len, reverse=True)`: the new element goes after every
element whose key is at least as large, which preserves the original order of
equal keys exactly as the stable CPython sort does. -/
def insertDescBy (key : α → Nat) (x : α) : List α → List α
  | [] => [x]
  | y :: ys => if key x ≤ key y then y :: insertDescBy key x ys else x :: y :: ys

/-- Stable descending sort by a natural-number key. -/
def sortDescBy (key : α → Nat) (l : List α) : List α :=
  l.foldl (fun acc x => insertDescBy key x acc) []

/-! ## Path helpers (`os.path` on POSIX separators) -/

/-- `os.path.basename`: the part after the last slash. -/
def pyBasename (p : List Char) : List Char := (p.reverse.takeWhile (· ≠ '/')).reverse

/-- `os.path.dirname`: everything up to the last slash, with trailing slashes
stripped unless the result consists of slashes only. -/
def pyDirname (p : List Char) : List Char :=
  let headRev := p.reverse.dropWhile (· ≠ '/')
  match headRev with
  | [] => []
  | _ :: _ =>
    if headRev.all (· = '/') then headRev.reverse
    else (headRev.dropWhile (· = '/')).reverse

/-- Root part of `os.path.splitext`: the extension dot must come after the last
slash and after at least one non-dot character of the basename. -/
def pySplitExtRoot (p : List Char) : List Char :=
  let base := pyBasename p
  let revb := base.reverse
  let extRev := revb.takeWhile (· ≠ '.')
  if extRev.length = base.length then p
  else if ((revb.drop extRev.length).drop 1).any (· ≠ '.') then
    p.take (p.length - extRev.length - 1)
  else p

/-- Extension part of `os.path.splitext` (with its dot), or `[]`. -/
def pySplitExtExt (p : List Char) : List Char :=
  let base := pyBasename p
  let revb := base.reverse
  let extRev := revb.takeWhile (· ≠ '.')
  if extRev.length = base.length then []
  else if ((revb.drop extRev.length).drop 1).any (· ≠ '.') then '.' :: extRev.reverse
  else []

/-! ## Translated regular-expression recognizers

Each `...MatchAt` function is the translation of one pattern of
`code_parser.py`, applied at a single position; `reFindAll` turns it into the
`re.finditer` scan.  Greedy repetition over classes that do not overlap the
following literal needs no backtracking; where a class contains `\s` and
follows `\s+`, the single relevant backtracking case (the group taking the
last whitespace character when it would otherwise be empty) is translated
explicitly. -/

/-- Quoted capture `['\"]([^'\"]+)['\"]` at the head of the input: an opening
quote, a non-empty run of non-quote characters, a closing quote. -/
def quoteCapAt (cs : List Char) : Option (List Char × List Char) :=
  match cs with
  | q :: r =>
    if isQuoteCh q then
      let g := r.takeWhile (fun c => !isQuoteCh c)
      if g.isEmpty then none
      else
        match r.drop g.length with
        | q2 :: r2 => if isQuoteCh q2 then some (g, r2) else none
        | [] => none
    else none
  | [] => none

/-- Python pattern `import\s+([a-zA-Z0-9_.,\s]+)` at one position. -/
def pyImport1MatchAt (cs : List Char) : Option (List Char × List Char) :=
  match matchLit "import".data cs with
  | none => none
  | some r0 =>
    let u := r0.takeWhile pyIsSpace
    if u.isEmpty then none
    else
      let r1 := r0.dropWhile pyIsSpace
      let g := r1.takeWhile inClassPyImp1
      if g.isEmpty then
        if 2 ≤ u.length then some (u.drop (u.length - 1), r1) else none
      else some (g, r1.drop g.length)

/-- Python pattern `from\s+([a-zA-Z0-9_.]+)\s+import\s+([a-zA-Z0-9_.,\s*]+)` at
one position; only the first group is kept (as in `parse_imports`), the
remainder starts after the whole match. -/
def pyImport2MatchAt (cs : List Char) : Option (List Char × List Char) :=
  match matchLit "from".data cs with
  | none => none
  | some r0 =>
    if (r0.takeWhile pyIsSpace).isEmpty then none
    else
      let r1 := r0.dropWhile pyIsSpace
      let g1 := r1.takeWhile inClassPyMod
      if g1.isEmpty then none
      else
        let r2 := r1.drop g1.length
        if (r2.takeWhile pyIsSpace).isEmpty then none
        else
          match matchLit "import".data (r2.dropWhile pyIsSpace) with
          | none => none
          | some r4 =>
            let u2 := r4.takeWhile pyIsSpace
            if u2.isEmpty then none
            else
              let r5 := r4.dropWhile pyIsSpace
              let g2 := r5.takeWhile inClassPyImp2
              if g2.isEmpty then
                if 2 ≤ u2.length then some (g1, r5) else none
              else some (g1, r5.drop g2.length)

/-- The tail `from\s+['\"]([^'\"]+)['\"]` of the first JavaScript recognizer,
at the head of the input. -/
def jsFromAt (cs : List Char) : Option (List Char × List Char) :=
  match matchLit "from".data cs with
  | none => none
  | some r =>
    if (r.takeWhile pyIsSpace).isEmpty then none
    else quoteCapAt (r.dropWhile pyIsSpace)

/-- The lazy `.*?` stretch before `from` in the first JavaScript recognizer:
try the tail at each position, moving right one non-newline character at a
time (the dot does not match a newline). -/
def jsLazyFrom : List Char → Option (List Char × List Char)
  | [] => none
  | c :: t =>
    match jsFromAt (c :: t) with
    | some r => some r
    | none => if c = '\n' then none else jsLazyFrom t

/-- JavaScript pattern `import\s+.*?from\s+['\"]([^'\"]+)['\"]` at one
position. -/
def jsImport1MatchAt (cs : List Char) : Option (List Char × List Char) :=
  match matchLit "import".data cs with
  | none => none
  | some r0 =>
    if (r0.takeWhile pyIsSpace).isEmpty then none
    else jsLazyFrom (r0.dropWhile pyIsSpace)

/-- JavaScript pattern `require\s*\(\s*['\"]([^'\"]+)['\"]` at one position. -/
def jsImport2MatchAt (cs : List Char) : Option (List Char × List Char) :=
  match matchLit "require".data cs with
  | none => none
  | some r0 =>
    match r0.dropWhile pyIsSpace with
    | '(' :: r1 => quoteCapAt (r1.dropWhile pyIsSpace)
    | _ => none

/-- JavaScript pattern `import\s+['\"]([^'\"]+)['\"]` at one position. -/
def jsImport3MatchAt (cs : List Char) : Option (List Char × List Char) :=
  match matchLit "import".data cs with
  | none => none
  | some r0 =>
    if (r0.takeWhile pyIsSpace).isEmpty then none
    else quoteCapAt (r0.dropWhile pyIsSpace)

/-- Java pattern `import\s+([a-zA-Z0-9_.]+\*?);` at one position (the optional
star belongs to the captured group). -/
def javaImportMatchAt (cs : List Char) : Option (List Char × List Char) :=
  match matchLit "import".data cs with
  | none => none
  | some r0 =>
    if (r0.takeWhile pyIsSpace).isEmpty then none
    else
      let r1 := r0.dropWhile pyIsSpace
      let g := r1.takeWhile inClassPyMod
      if g.isEmpty then none
      else
        match r1.drop g.length with
        | '*' :: ';' :: r2 => some (g ++ ['*'], r2)
        | ';' :: r2 => some (g, r2)
        | _ => none

/-- Python pattern `class\s+([a-zA-Z0-9_]+)(?:\(([a-zA-Z0-9_.,\s]+)\))?:` at
one position: the optional parent group must be followed by the colon, and
when it fails the colon must follow the name directly. -/
def pyClassMatchAt (cs : List Char) : Option ((List Char × Option (List Char)) × List Char) :=
  match matchLit "class".data cs with
  | none => none
  | some r0 =>
    if (r0.takeWhile pyIsSpace).isEmpty then none
    else
      let r1 := r0.dropWhile pyIsSpace
      let name := r1.takeWhile isWordCh
      if name.isEmpty then none
      else
        match r1.drop name.length with
        | '(' :: r2 =>
          let g := r2.takeWhile inClassPyParents
          if g.isEmpty then none
          else
            match r2.drop g.length with
            | ')' :: ':' :: r3 => some ((name, some g), r3)
            | _ => none
        | ':' :: r3 => some ((name, none), r3)
        | _ => none

/-- Python pattern `def\s+([a-zA-Z0-9_]+)\s*\(` at one position. -/
def pyDefMatchAt (cs : List Char) : Option (List Char × List Char) :=
  match matchLit "def".data cs with
  | none => none
  | some r0 =>
    if (r0.takeWhile pyIsSpace).isEmpty then none
    else
      let r1 := r0.dropWhile pyIsSpace
      let name := r1.takeWhile isWordCh
      if name.isEmpty then none
      else
        match (r1.drop name.length).dropWhile pyIsSpace with
        | '(' :: r2 => some (name, r2)
        | _ => none

/-- Flask pattern
`@(?:[a-zA-Z0-9_]+\.)?route\(['\"]([^'\"]+)['\"](?:,\s*methods=\[([^\]]+)\])?`
at one position.  The optional dotted receiver is tried first; if its
continuation fails, the literal `route(` must follow the `@` directly. -/
def flaskRouteMatchAt (cs : List Char) :
    Option ((List Char × Option (List Char)) × List Char) :=
  match matchLit "@".data cs with
  | none => none
  | some r0 =>
    let n := r0.takeWhile isWordCh
    let afterRoute :=
      match (if n.isEmpty then none else
              match r0.drop n.length with
              | '.' :: r1 => matchLit "route(".data r1
              | _ => none) with
      | some r => some r
      | none => matchLit "route(".data r0
    match afterRoute with
    | none => none
    | some r2 =>
      match quoteCapAt r2 with
      | none => none
      | some (path, r4) =>
        let opt :=
          match r4 with
          | ',' :: r5 =>
            match matchLit "methods=[".data (r5.dropWhile pyIsSpace) with
            | some r6 =>
              let m := r6.takeWhile (· ≠ ']')
              if m.isEmpty then none
              else
                match r6.drop m.length with
                | ']' :: r7 => some (m, r7)
                | _ => none
            | none => none
          | _ => none
        match opt with
        | some (m, r7) => some ((path, some m), r7)
        | none => some ((path, none), r4)

/-- The part of the Express pattern after the receiver and the dot:
`([a-z]+)\s*\(` followed by the quoted path capture. -/
def expressContAt (r : List Char) : Option ((List Char × List Char) × List Char) :=
  let w := r.takeWhile isLowerAZ
  if w.isEmpty then none
  else
    match ((r.dropWhile isLowerAZ).dropWhile pyIsSpace) with
    | '(' :: r2 =>
      match quoteCapAt r2 with
      | some (p, r3) => some ((w, p), r3)
      | none => none
    | _ => none

/-- Express pattern `(?:app|router)\.([a-z]+)\s*\(['\"]([^'\"]+)['\"]` at one
position (the two receivers cannot both be prefixes of the same text). -/
def expressRouteMatchAt (cs : List Char) :
    Option ((List Char × List Char) × List Char) :=
  match matchLit "app.".data cs with
  | some r => expressContAt r
  | none =>
    match matchLit "router.".data cs with
    | some r => expressContAt r
    | none => none

/-! ## `CodeParser` (translation of `app/parsers/code_parser.py`) -/

/-- The `language_map` table of `CodeParser.__init__`. -/
def extensionLanguage : String → Option String := fun e =>
  match e with
  | "py" => some "Python"
  | "js" => some "JavaScript"
  | "jsx" => some "JavaScript (React)"
  | "ts" => some "TypeScript"
  | "tsx" => some "TypeScript (React)"
  | "java" => some "Java"
  | "c" => some "C"
  | "cpp" => some "C++"
  | "cs" => some "C#"
  | "go" => some "Go"
  | "rb" => some "Ruby"
  | "php" => some "PHP"
  | "swift" => some "Swift"
  | "kt" => some "Kotlin"
  | "rs" => some "Rust"
  | "html" => some "HTML"
  | "css" => some "CSS"
  | "scss" => some "SCSS"
  | "md" => some "Markdown"
  | "json" => some "JSON"
  | "yaml" => some "YAML"
  | "yml" => some "YAML"
  | "sql" => some "SQL"
  | "sh" => some "Shell"
  | "bat" => some "Batch"
  | "ps1" => some "PowerShell"
  | _ => none

/-- `CodeParser.detect_language`: extension lookup, then content heuristics. -/
def detect_language (file_path content : String) : String :=
  let ext := String.mk (((pySplitExtExt file_path.data).drop 1).map Char.toLower)
  match extensionLanguage ext with
  | some lang => lang
  | none =>
    if containsSub "def ".data content.data && containsSub "import ".data content.data then
      "Python"
    else if containsSub "function ".data content.data || containsSub "const ".data content.data
        || containsSub "let ".data content.data then
      "JavaScript"
    else if containsSub "public class ".data content.data
        || containsSub "private class ".data content.data then
      "Java"
    else "Unknown"

/-- The JavaScript/TypeScript entry of the `import_patterns` table: the three
recognizers scanned in table order, each over the whole text. -/
def jsImportTokens (cs : List Char) : List String :=
  ((reFindAll jsImport1MatchAt cs).map fun g => String.mk (pyStrip g)) ++
  ((reFindAll jsImport2MatchAt cs).map fun g => String.mk (pyStrip g)) ++
  ((reFindAll jsImport3MatchAt cs).map fun g => String.mk (pyStrip g))

/-- `CodeParser.parse_imports`: every match of every recognizer of the
language contributes `match.group(1).strip()`, recognizers in table order. -/
def parse_imports (content language : String) : List String :=
  match language with
  | "Python" =>
    ((reFindAll pyImport1MatchAt content.data).map fun g => String.mk (pyStrip g)) ++
    ((reFindAll pyImport2MatchAt content.data).map fun g => String.mk (pyStrip g))
  | "JavaScript" => jsImportTokens content.data
  | "TypeScript" => jsImportTokens content.data
  | "Java" => ((reFindAll javaImportMatchAt content.data).map fun g => String.mk (pyStrip g))
  | _ => []

/-- One entry of the `classes` list of a parsed file. -/
structure ClassInfo where
  name : String
  parent_classes : List String
deriving DecidableEq, Repr

/-- `CodeParser.parse_classes`.  The `class_patterns` table also carries
JavaScript, TypeScript and Java recognizers; no claim below exercises them and
they are not modelled, so only the Python recognizer is translated here. -/
def parse_classes (content language : String) : List ClassInfo :=
  match language with
  | "Python" =>
    (reFindAll pyClassMatchAt content.data).map fun m =>
      { name := String.mk m.1
        parent_classes :=
          match m.2 with
          | some g => (splitOnCh ',' g).map fun x => String.mk (pyStrip x)
          | none => [] }
  | _ => []

/-- `CodeParser.parse_functions` (only the `name` field of each entry is ever
read downstream, so an entry is modelled as its name).  As with
`parse_classes`, only the Python recognizer of the table is translated. -/
def parse_functions (content language : String) : List String :=
  match language with
  | "Python" => (reFindAll pyDefMatchAt content.data).map String.mk
  | _ => []

/-- One entry of the `endpoints` list of a parsed file. -/
structure EndpointInfo where
  path : String
  methods : List String
  etype : String
deriving DecidableEq, Repr

/-- The Flask half of `CodeParser.extract_api_endpoints`: a missing or empty
methods list defaults to `["GET"]`. -/
def flaskEndpoints (cs : List Char) : List EndpointInfo :=
  (reFindAll flaskRouteMatchAt cs).map fun m =>
    { path := String.mk m.1
      methods :=
        match m.2 with
        | some ms =>
          let l := (splitOnCh ',' ms).map fun x => String.mk (pyStripQuotes x)
          if l.isEmpty then ["GET"] else l
        | none => ["GET"]
      etype := "Flask" }

/-- The Express half of `CodeParser.extract_api_endpoints`: the captured
method word is upper-cased. -/
def expressEndpoints (cs : List Char) : List EndpointInfo :=
  (reFindAll expressRouteMatchAt cs).map fun m =>
    { path := String.mk m.2
      methods := [String.mk (m.1.map Char.toUpper)]
      etype := "Express" }

/-- `CodeParser.extract_api_endpoints`: the Flask scan runs for Python, the
Express scan for JavaScript and TypeScript, results concatenated. -/
def extract_api_endpoints (content language : String) : List EndpointInfo :=
  (if language = "Python" then flaskEndpoints content.data else []) ++
  (if language = "JavaScript" ∨ language = "TypeScript" then expressEndpoints content.data
   else [])

/-- A parsed file, mirroring the dictionary returned by
`CodeParser.parse_file`: skipped (binary or unknown) files carry only the
summary and kind keys, so the extraction fields are `Option`s that are `none`
exactly when the corresponding key is absent. -/
structure ParsedFile where
  path : String
  language : String
  summary : Option String
  imports : Option (List String)
  classes : Option (List ClassInfo)
  functions : Option (List String)
  endpoints : Option (List EndpointInfo)
  loc : Option Nat
  ftype : String
deriving DecidableEq, Repr

/-- The sentinel content marking binary files. -/
def binarySentinel : String := "[Binary file not shown]"

/-- `CodeParser.parse_file` (the detected language is a local of the source;
it is written out here so that the branch condition is a plain term). -/
def parse_file (file_path content : String) : ParsedFile :=
  if content = binarySentinel ∨ detect_language file_path content = "Unknown" then
    { path := file_path
      language := detect_language file_path content
      summary := some "Binary file or unknown format"
      imports := none, classes := none, functions := none, endpoints := none
      loc := none
      ftype := if content = binarySentinel then "binary" else "unknown" }
  else
    let lang := detect_language file_path content
    let ends := fun (e : String) => List.isSuffixOf e.data file_path.data
    { path := file_path
      language := lang
      summary := none
      imports := some (parse_imports content lang)
      classes := some (parse_classes content lang)
      functions := some (parse_functions content lang)
      endpoints := some (extract_api_endpoints content lang)
      loc := some (content.data.count '\n' + 1)
      ftype :=
        if ends ".md" || ends ".txt" then "documentation"
        else if ends ".json" || ends ".yaml" || ends ".yml" || ends ".xml" || ends ".toml" then
          "config"
        else if ends ".html" || ends ".css" || ends ".scss" || ends ".less" then "frontend"
        else if containsSub "test".data (file_path.data.map Char.toLower)
            || ends "spec.js" || ends "spec.ts" then "test"
        else "source" }

/-- The import-resolution step of `build_dependency_graph`: a symbol-table hit
is kept when the target is truthy and differs from the importing file. -/
def resolveImport (mt : List (String × String)) (file_path tok : String) : Option String :=
  match lookupFst mt tok with
  | some t => if t ≠ "" ∧ t ≠ file_path then some t else none
  | none => none

/-- All dotted suffixes of the module parts, longest first, as registered by
the first pass of `build_dependency_graph`. -/
def suffixJoins : List (List Char) → List (List Char)
  | [] => []
  | p :: ps => List.intercalate ['.'] (p :: ps) :: suffixJoins ps

/-- First pass of `CodeParser.build_dependency_graph`: the symbol table from
plausible module spellings to file paths (later registrations overwrite). -/
def module_to_file (pf : List (String × ParsedFile)) : List (String × String) :=
  pf.foldl
    (fun mt e =>
      if e.2.language = "Python" then
        let module_path := (pySplitExtRoot e.1.data).map fun c => if c = '/' then '.' else c
        (suffixJoins (splitOnCh '.' module_path)).foldl
          (fun mt2 name => if name.isEmpty then mt2 else dictUpd mt2 (String.mk name) e.1) mt
      else if e.2.language = "JavaScript" ∨ e.2.language = "TypeScript" then
        let base := String.mk (pySplitExtRoot e.1.data)
        dictUpd (dictUpd mt base e.1) ("./" ++ base) e.1
      else mt)
    []

/-- The inner loop of the second pass of `build_dependency_graph`: each
resolvable import token of one file appends one target to the defaultdict
entry of that file (no deduplication in the source). -/
def depAppendFile (mt : List (String × String)) (deps : List (String × List String))
    (file_path : String) (imps : List String) : List (String × List String) :=
  imps.foldl
    (fun d tok =>
      match resolveImport mt file_path tok with
      | some t => multiAppend d file_path t
      | none => d)
    deps

/-- Second pass of `CodeParser.build_dependency_graph`: the inner loop above,
run over every file against the symbol table of the first pass. -/
def build_dependency_graph (pf : List (String × ParsedFile)) : List (String × List String) :=
  let mt := module_to_file pf
  pf.foldl (fun deps e => depAppendFile mt deps e.1 (e.2.imports.getD [])) []

/-- Aggregate statistics of `CodeParser.parse_repository`. -/
structure Statistics where
  total_files : Nat
  languages : List (String × Nat)
  file_types : List (String × Nat)
  total_loc : Nat
deriving DecidableEq, Repr

/-- A repository snapshot as consumed by `parse_repository`; of each file
entry only the `content` field is ever read, so it is modelled directly. -/
structure Repository where
  metadata : String
  files : List (String × String)
  path : String
deriving DecidableEq, Repr

/-- The result of `CodeParser.parse_repository`. -/
structure RepositoryAnalysis where
  metadata : String
  parsed_files : List (String × ParsedFile)
  dependencies : List (String × List String)
  statistics : Statistics
  repository_path : String
deriving DecidableEq, Repr

/-- `CodeParser.parse_repository`: optional allow-list filter (skipped for a
falsy value, that is `None` or an empty list), per-file parsing, dependency
graph, statistics. -/
def parse_repository (repository : Repository) (selected_files : Option (List String)) :
    RepositoryAnalysis :=
  let files :=
    match selected_files with
    | some sel => if sel.isEmpty then repository.files
                  else repository.files.filter fun e => sel.contains e.1
    | none => repository.files
  let parsed_files := files.map fun e => (e.1, parse_file e.1 e.2)
  { metadata := repository.metadata
    parsed_files := parsed_files
    dependencies := build_dependency_graph parsed_files
    statistics :=
      { total_files := parsed_files.length
        languages := parsed_files.foldl (fun m e => bumpCount m e.2.language) []
        file_types := parsed_files.foldl (fun m e => bumpCount m e.2.ftype) []
        total_loc := parsed_files.foldl (fun n e => n + e.2.loc.getD 0) 0 }
    repository_path := repository.path }

/-! ## `DiagramGenerator` (translation of `app/diagrams/generator.py`)

Each diagram kind is translated twice, once per output grammar, mirroring the
duplicated Python methods.  The graph content computed before serialization
(node lists and edge lists) is given by named definitions so that structural
properties can be stated without parsing the rendered text; the `create_...`
functions then serialize that content with the exact literal fragments of the
source.  One source line is not executable Python: line 200 writes the opening
of a mermaid class block through an f-string whose lone brace (followed by a
backslash escape) is rejected by CPython, so the module cannot even be
imported; the serializer here follows the evident intent of a literal brace,
which the parallel api renderer (line 437) spells correctly as a doubled
brace.  This is recorded where the claims touch it. -/

/-- The generator state set up by `DiagramGenerator.__init__`. -/
structure DiagramGenerator where
  format : String
  max_elements : Int
deriving DecidableEq, Repr

/-- `DiagramGenerator.__init__`: the format is lower-cased and checked against
the two supported values (a failure is the `ValueError` of the source);
`max_elements` is stored without any validation. -/
def diagramGeneratorInit (format : String) (max_elements : Int) :
    Except String DiagramGenerator :=
  if String.mk (format.data.map Char.toLower) = "mermaid" ∨
      String.mk (format.data.map Char.toLower) = "graphviz" then
    .ok { format := String.mk (format.data.map Char.toLower), max_elements := max_elements }
  else .error ("Unsupported diagram format: " ++ format)

/-- `re.sub(r'[^\w]', '_', s)`: non-word characters become underscores. -/
def sanitizeId (s : String) : String :=
  String.mk (s.data.map fun c => if isWordCh c then c else '_')

/-- `os.path.dirname(p) or "root"`, the module of a file path in the
architecture diagrams. -/
def dirOrRoot (p : String) : String :=
  let d := pyDirname p.data
  if d.isEmpty then "root" else String.mk d

/-- Grouping of files by directory (the `modules` defaultdict of the
architecture renderers). -/
def archModules (pf : List (String × ParsedFile)) : List (String × List String) :=
  pf.foldl (fun m e => multiAppend m (dirOrRoot e.1) e.1) []

/-- The module truncation of the architecture renderers: when the module count
exceeds `max_elements`, sort by member count descending (stable) and slice. -/
def archKeptModules (pd : RepositoryAnalysis) (me : Int) : List (String × List String) :=
  let modules := archModules pd.parsed_files
  if (modules.length : Int) > me then pySliceTo (sortDescBy (fun e => e.2.length) modules) me
  else modules

/-- The inner loop of the `module_dependencies` accumulation: project the
targets of one dependency entry to modules, skipping self-module pairs. -/
def archAddFile (m : List (String × List String)) (f : String) (ts : List String) :
    List (String × List String) :=
  ts.foldl
    (fun m2 t =>
      let sm := dirOrRoot f
      let tm := dirOrRoot t
      if sm ≠ tm then setAdd m2 sm tm else m2)
    m

/-- The `module_dependencies` defaultdict(set) of the architecture renderers,
built from the full dependency mapping (not restricted to kept modules). -/
def archModuleDeps (deps : List (String × List String)) : List (String × List String) :=
  deps.foldl (fun m e => archAddFile m e.1 e.2) []

/-- Flattening of a grouped mapping into (source, target) pairs in iteration
order. -/
def flatPairs (m : List (String × List String)) : List (String × String) :=
  m.flatMap fun e => e.2.map fun t => (e.1, t)

/-- Nodes of the mermaid architecture diagram: kept modules with their member
counts. -/
def archNodesMermaid (pd : RepositoryAnalysis) (me : Int) : List (String × Nat) :=
  (archKeptModules pd me).map fun e => (e.1, e.2.length)

/-- Nodes of the graphviz architecture diagram (the same computation as the
mermaid renderer, duplicated as in the source). -/
def archNodesGraphviz (pd : RepositoryAnalysis) (me : Int) : List (String × Nat) :=
  (archKeptModules pd me).map fun e => (e.1, e.2.length)

/-- Edges of the mermaid architecture diagram. -/
def archEdgesMermaid (pd : RepositoryAnalysis) : List (String × String) :=
  flatPairs (archModuleDeps pd.dependencies)

/-- Edges of the graphviz architecture diagram. -/
def archEdgesGraphviz (pd : RepositoryAnalysis) : List (String × String) :=
  flatPairs (archModuleDeps pd.dependencies)

/-- `DiagramGenerator._create_architecture_diagram_mermaid`. -/
def create_architecture_diagram_mermaid (pd : RepositoryAnalysis) (me : Int) : String :=
  let nodes := (archNodesMermaid pd me).foldl
    (fun acc e =>
      acc ++ "    " ++ sanitizeId e.1 ++ "[" ++ e.1 ++ "<br/>(" ++ toString e.2 ++ " files)]\n")
    ""
  let edges := (archEdgesMermaid pd).foldl
    (fun acc e => acc ++ "    " ++ sanitizeId e.1 ++ " --> " ++ sanitizeId e.2 ++ "\n") ""
  "```mermaid\ngraph TD\n" ++ nodes ++ edges ++ "```"

/-- `DiagramGenerator._create_architecture_diagram_graphviz`. -/
def create_architecture_diagram_graphviz (pd : RepositoryAnalysis) (me : Int) : String :=
  let nodes := (archNodesGraphviz pd me).foldl
    (fun acc e =>
      acc ++ "    " ++ sanitizeId e.1 ++ " [label=\"" ++ e.1 ++ "\\n(" ++ toString e.2
        ++ " files)\"];\n")
    ""
  let edges := (archEdgesGraphviz pd).foldl
    (fun acc e => acc ++ "    " ++ sanitizeId e.1 ++ " -> " ++ sanitizeId e.2 ++ ";\n") ""
  "digraph G \x7b\n    rankdir=TB;\n    node [shape=box, style=filled, fillcolor=lightblue];\n"
    ++ nodes ++ edges ++ "\x7d"

/-- The `classes` dict of the class renderers: class name to (file, parents),
later definitions overwriting earlier ones in place. -/
def classesTable (pf : List (String × ParsedFile)) : List (String × (String × List String)) :=
  pf.foldl
    (fun m e =>
      (e.2.classes.getD []).foldl (fun m2 c => dictUpd m2 c.name (e.1, c.parent_classes)) m)
    []

/-- The class truncation: the first `max_elements` entries in insertion
order. -/
def classKept (pd : RepositoryAnalysis) (me : Int) : List (String × (String × List String)) :=
  let c := classesTable pd.parsed_files
  if (c.length : Int) > me then pySliceTo c me else c

/-- Nodes of the mermaid class diagram. -/
def classNodesMermaid (pd : RepositoryAnalysis) (me : Int) : List String :=
  (classKept pd me).map Prod.fst

/-- Nodes of the graphviz class diagram. -/
def classNodesGraphviz (pd : RepositoryAnalysis) (me : Int) : List String :=
  (classKept pd me).map Prod.fst

/-- Inheritance edges of the mermaid class diagram, as (child, parent) pairs:
a parent is drawn only when it is itself a kept class (the mermaid source
writes `parent <|-- child`, the graphviz source `child -> parent`; both list
the same pairs). -/
def classEdgesMermaid (pd : RepositoryAnalysis) (me : Int) : List (String × String) :=
  (classKept pd me).flatMap fun e =>
    (e.2.2.filter fun par => (classKept pd me).any fun x => x.1 = par).map fun par => (e.1, par)

/-- Inheritance edges of the graphviz class diagram, as (child, parent)
pairs. -/
def classEdgesGraphviz (pd : RepositoryAnalysis) (me : Int) : List (String × String) :=
  (classKept pd me).flatMap fun e =>
    (e.2.2.filter fun par => (classKept pd me).any fun x => x.1 = par).map fun par => (e.1, par)

/-- The function names listed in a class body: the functions of the file the
class came from, with empty names skipped (`len(func.get('name', '')) > 0`).
The source indexes `parsed_files` directly; the key is always present there
because the class entry was collected from it, so the absent case of the
lookup is unreachable on renderer inputs produced by the parser. -/
def classFileFunctions (pd : RepositoryAnalysis) (file : String) : List String :=
  match lookupFst pd.parsed_files file with
  | some fi => (fi.functions.getD []).filter fun n => !(n == "")
  | none => []

/-- `DiagramGenerator._create_class_diagram_mermaid`.  The opening of each
class block is serialized as a literal brace: the source f-string (line 200)
leaves the brace unescaped, which CPython rejects outright, so this follows
the evident intent (compare the correctly doubled brace of line 437). -/
def create_class_diagram_mermaid (pd : RepositoryAnalysis) (me : Int) : String :=
  let kept := classKept pd me
  let inh := (classEdgesMermaid pd me).foldl
    (fun acc e => acc ++ "    " ++ e.2 ++ " <|-- " ++ e.1 ++ "\n") ""
  let bodies := kept.foldl
    (fun acc e =>
      let fns := (classFileFunctions pd e.2.1).foldl
        (fun a2 n => a2 ++ "        +" ++ n ++ "()\n") ""
      acc ++ "    class " ++ e.1 ++ " \x7b\n        +" ++ String.mk (pyBasename e.2.1.data)
        ++ "\n" ++ fns ++ "    \x7d\n")
    ""
  "```mermaid\nclassDiagram\n" ++ inh ++ bodies ++ "```"

/-- `DiagramGenerator._create_class_diagram_graphviz` (the label opens with a
doubled brace from the quadrupled f-string braces and closes with the four
literal closing braces of the plain string on line 268). -/
def create_class_diagram_graphviz (pd : RepositoryAnalysis) (me : Int) : String :=
  let kept := classKept pd me
  let nodes := kept.foldl
    (fun acc e =>
      let fns := (classFileFunctions pd e.2.1).map fun n => n ++ "()"
      let fnPart := if fns.isEmpty then "" else " | " ++ String.intercalate "\\l+ " fns ++ "\\l"
      acc ++ "    " ++ e.1 ++ " [label=\"\x7b\x7b " ++ e.1 ++ " | + "
        ++ String.mk (pyBasename e.2.1.data) ++ " " ++ fnPart ++ "\x7d\x7d\x7d\x7d\"];\n")
    ""
  let inh := (classEdgesGraphviz pd me).foldl
    (fun acc e => acc ++ "    " ++ e.1 ++ " -> " ++ e.2 ++ " [arrowhead=empty];\n") ""
  "digraph G \x7b\n    rankdir=BT;\n    node [shape=record, style=filled, fillcolor=lightblue];\n"
    ++ nodes ++ inh ++ "\x7d"

/-- The dependency truncation: when the number of source entries (not the
number of edges) exceeds `max_elements`, sort entries by outgoing count
descending (stable) and slice. -/
def depKeptEntries (pd : RepositoryAnalysis) (me : Int) : List (String × List String) :=
  if (pd.dependencies.length : Int) > me then
    pySliceTo (sortDescBy (fun e => e.2.length) pd.dependencies) me
  else pd.dependencies

/-- Nodes of the mermaid dependency diagram: source and target paths in
emission order, deduplicated by sanitized identifier as the `added_nodes` set
does. -/
def depNodesMermaid (pd : RepositoryAnalysis) (me : Int) : List String :=
  (depKeptEntries pd me).foldl
    (fun acc e =>
      let acc1 := if acc.any (fun n => sanitizeId n = sanitizeId e.1) then acc else acc ++ [e.1]
      e.2.foldl
        (fun a2 t => if a2.any (fun n => sanitizeId n = sanitizeId t) then a2 else a2 ++ [t])
        acc1)
    []

/-- Nodes of the graphviz dependency diagram. -/
def depNodesGraphviz (pd : RepositoryAnalysis) (me : Int) : List String :=
  (depKeptEntries pd me).foldl
    (fun acc e =>
      let acc1 := if acc.any (fun n => sanitizeId n = sanitizeId e.1) then acc else acc ++ [e.1]
      e.2.foldl
        (fun a2 t => if a2.any (fun n => sanitizeId n = sanitizeId t) then a2 else a2 ++ [t])
        acc1)
    []

/-- Edges of the mermaid dependency diagram. -/
def depEdgesMermaid (pd : RepositoryAnalysis) (me : Int) : List (String × String) :=
  flatPairs (depKeptEntries pd me)

/-- Edges of the graphviz dependency diagram. -/
def depEdgesGraphviz (pd : RepositoryAnalysis) (me : Int) : List (String × String) :=
  flatPairs (depKeptEntries pd me)

/-- `DiagramGenerator._create_dependency_diagram_mermaid` (node and edge lines
interleave exactly as in the source loop). -/
def create_dependency_diagram_mermaid (pd : RepositoryAnalysis) (me : Int) : String :=
  let body := ((depKeptEntries pd me).foldl
    (fun (st : String × List String) e =>
      let sid := sanitizeId e.1
      let st1 :=
        if st.2.contains sid then st
        else (st.1 ++ "    " ++ sid ++ "[" ++ String.mk (pyBasename e.1.data) ++ "]\n",
              st.2 ++ [sid])
      e.2.foldl
        (fun st2 t =>
          let tid := sanitizeId t
          let st3 :=
            if st2.2.contains tid then st2
            else (st2.1 ++ "    " ++ tid ++ "[" ++ String.mk (pyBasename t.data) ++ "]\n",
                  st2.2 ++ [tid])
          (st3.1 ++ "    " ++ sid ++ " --> " ++ tid ++ "\n", st3.2))
        st1)
    ("", [])).1
  "```mermaid\ngraph LR\n" ++ body ++ "```"

/-- `DiagramGenerator._create_dependency_diagram_graphviz`. -/
def create_dependency_diagram_graphviz (pd : RepositoryAnalysis) (me : Int) : String :=
  let body := ((depKeptEntries pd me).foldl
    (fun (st : String × List String) e =>
      let sid := sanitizeId e.1
      let st1 :=
        if st.2.contains sid then st
        else (st.1 ++ "    " ++ sid ++ " [label=\"" ++ String.mk (pyBasename e.1.data)
                ++ "\"];\n",
              st.2 ++ [sid])
      e.2.foldl
        (fun st2 t =>
          let tid := sanitizeId t
          let st3 :=
            if st2.2.contains tid then st2
            else (st2.1 ++ "    " ++ tid ++ " [label=\"" ++ String.mk (pyBasename t.data)
                    ++ "\"];\n",
                  st2.2 ++ [tid])
          (st3.1 ++ "    " ++ sid ++ " -> " ++ tid ++ ";\n", st3.2))
        st1)
    ("", [])).1
  "digraph G \x7b\n    rankdir=LR;\n    node [shape=box, style=filled, fillcolor=lightblue];\n"
    ++ body ++ "\x7d"

/-- The endpoint collection of the api renderers: (file, endpoint) pairs in
file order. -/
def apiAllEndpoints (pf : List (String × ParsedFile)) : List (String × EndpointInfo) :=
  pf.foldl (fun acc e => acc ++ (e.2.endpoints.getD []).map fun ep => (e.1, ep)) []

/-- The api truncation: the first `max_elements` endpoints in encounter
order. -/
def apiKept (pd : RepositoryAnalysis) (me : Int) : List (String × EndpointInfo) :=
  let eps := apiAllEndpoints pd.parsed_files
  if (eps.length : Int) > me then pySliceTo eps me else eps

/-- The `endpoints_by_file` grouping of the api renderers. -/
def apiByFile (pd : RepositoryAnalysis) (me : Int) : List (String × List EndpointInfo) :=
  (apiKept pd me).foldl (fun m e => multiAppend m e.1 e.2) []

/-- Nodes of the mermaid api diagram: the files that own kept endpoints. -/
def apiNodesMermaid (pd : RepositoryAnalysis) (me : Int) : List String :=
  (apiByFile pd me).map Prod.fst

/-- Nodes of the graphviz api diagram. -/
def apiNodesGraphviz (pd : RepositoryAnalysis) (me : Int) : List String :=
  (apiByFile pd me).map Prod.fst

/-- Edges of the mermaid api diagram: the mermaid renderer emits class blocks
only and never a relation line, so this list is empty by construction. -/
def apiEdgesMermaid (_pd : RepositoryAnalysis) (_me : Int) : List (String × String) := []

/-- Edges of the graphviz api diagram: within each framework group (keyed by
the routing style of the first endpoint of each file) consecutive files are
chained with dashed edges. -/
def apiEdgesGraphviz (pd : RepositoryAnalysis) (me : Int) : List (String × String) :=
  let groups := (apiByFile pd me).foldl
    (fun g e =>
      multiAppend g (match e.2 with | ep :: _ => ep.etype | [] => "Unknown") e.1)
    []
  groups.flatMap fun fr =>
    if 1 < fr.2.length then (fr.2.zip fr.2.tail).map fun ab => (ab.1, ab.2) else []

/-- `DiagramGenerator._create_api_diagram_mermaid`. -/
def create_api_diagram_mermaid (pd : RepositoryAnalysis) (me : Int) : String :=
  if (apiKept pd me).isEmpty then "```mermaid\ngraph TD\n    A[No API endpoints detected]\n```"
  else
    let blocks := (apiByFile pd me).foldl
      (fun acc e =>
        let eps := e.2.foldl
          (fun a2 ep =>
            a2 ++ "        +" ++ String.intercalate ", " ep.methods ++ " " ++ ep.path ++ "\n")
          ""
        acc ++ "    class " ++ sanitizeId e.1 ++ " \x7b\n        +"
          ++ String.mk (pyBasename e.1.data) ++ "\n" ++ eps ++ "    \x7d\n")
      ""
    "```mermaid\nclassDiagram\n" ++ blocks ++ "```"

/-- `DiagramGenerator._create_api_diagram_graphviz`. -/
def create_api_diagram_graphviz (pd : RepositoryAnalysis) (me : Int) : String :=
  if (apiKept pd me).isEmpty then
    "digraph G \x7b\n    A [label=\"No API endpoints detected\"];\n\x7d"
  else
    let nodes := (apiByFile pd me).foldl
      (fun acc e =>
        let labels := e.2.map fun ep =>
          "+ " ++ String.intercalate ", " ep.methods ++ " " ++ ep.path
        let label := String.mk (pyBasename e.1.data) ++ "|"
          ++ String.intercalate "\\l" labels ++ "\\l"
        acc ++ "    " ++ sanitizeId e.1 ++ " [label=\"\x7b " ++ label ++ " \x7d\"];\n")
      ""
    let groups := (apiByFile pd me).foldl
      (fun g e =>
        multiAppend g (match e.2 with | ep :: _ => ep.etype | [] => "Unknown") e.1)
      []
    let edges := groups.foldl
      (fun acc fr =>
        if 1 < fr.2.length then
          (fr.2.zip fr.2.tail).foldl
            (fun a2 ab =>
              a2 ++ "    " ++ sanitizeId ab.1 ++ " -> " ++ sanitizeId ab.2
                ++ " [style=dashed, label=\"" ++ fr.1 ++ "\"];\n")
            acc
        else acc)
      ""
    "digraph G \x7b\n    rankdir=TB;\n    node [shape=record, style=filled, fillcolor=lightblue];\n"
      ++ nodes ++ edges ++ "\x7d"

/-- `DiagramGenerator.create_architecture_diagram` (grammar dispatch). -/
def create_architecture_diagram (g : DiagramGenerator) (pd : RepositoryAnalysis) : String :=
  if g.format = "mermaid" then create_architecture_diagram_mermaid pd g.max_elements
  else create_architecture_diagram_graphviz pd g.max_elements

/-- `DiagramGenerator.create_class_diagram` (grammar dispatch). -/
def create_class_diagram (g : DiagramGenerator) (pd : RepositoryAnalysis) : String :=
  if g.format = "mermaid" then create_class_diagram_mermaid pd g.max_elements
  else create_class_diagram_graphviz pd g.max_elements

/-- `DiagramGenerator.create_dependency_diagram` (grammar dispatch). -/
def create_dependency_diagram (g : DiagramGenerator) (pd : RepositoryAnalysis) : String :=
  if g.format = "mermaid" then create_dependency_diagram_mermaid pd g.max_elements
  else create_dependency_diagram_graphviz pd g.max_elements

/-- `DiagramGenerator.create_api_diagram` (grammar dispatch). -/
def create_api_diagram (g : DiagramGenerator) (pd : RepositoryAnalysis) : String :=
  if g.format = "mermaid" then create_api_diagram_mermaid pd g.max_elements
  else create_api_diagram_graphviz pd g.max_elements

/-- `DiagramGenerator.generate_diagrams`: the four diagrams keyed by kind. -/
def generate_diagrams (g : DiagramGenerator) (pd : RepositoryAnalysis) :
    List (String × String) :=
  [("architecture", create_architecture_diagram g pd),
   ("class", create_class_diagram g pd),
   ("dependency", create_dependency_diagram g pd),
   ("api", create_api_diagram g pd)]

/-- The module-level `generate_diagrams` helper: construct a generator (which
can fail) and render. -/
def generateDiagramsTop (pd : RepositoryAnalysis) (format : String) (max_elements : Int) :
    Except String (List (String × String)) :=
  (diagramGeneratorInit format max_elements).map fun g => generate_diagrams g pd

/-! ## Properties of the stable descending sort -/

section SortLemmas

variable {α : Type} (key : α → Nat)

theorem insertDescBy_perm (x : α) (l : List α) :
    (insertDescBy key x l).Perm (x :: l) := by
  induction l with
  | nil => simp [insertDescBy]
  | cons y ys ih =>
    simp only [insertDescBy]
    split
    · exact (ih.cons y).trans (List.Perm.swap x y ys)
    · exact List.Perm.refl _

theorem insertDescBy_sorted (x : α) (l : List α)
    (h : l.Pairwise (fun a b => key b ≤ key a)) :
    (insertDescBy key x l).Pairwise (fun a b => key b ≤ key a) := by
  induction l with
  | nil => simp [insertDescBy]
  | cons y ys ih =>
    rw [List.pairwise_cons] at h
    simp only [insertDescBy]
    split
    · rename_i hxy
      rw [List.pairwise_cons]
      refine ⟨fun z hz => ?_, ih h.2⟩
      rcases List.mem_cons.mp ((insertDescBy_perm key x ys).mem_iff.mp hz) with rfl | hz
      · exact hxy
      · exact h.1 z hz
    · rename_i hxy
      have hyx : key y < key x := Nat.lt_of_not_le hxy
      rw [List.pairwise_cons]
      refine ⟨fun z hz => ?_, List.pairwise_cons.mpr h⟩
      rcases List.mem_cons.mp hz with rfl | hz
      · exact Nat.le_of_lt hyx
      · exact Nat.le_trans (h.1 z hz) (Nat.le_of_lt hyx)

theorem insertDescBy_filter (n : Nat) (x : α) (l : List α)
    (h : l.Pairwise (fun a b => key b ≤ key a)) :
    (insertDescBy key x l).filter (fun a => key a == n) =
      if key x == n then l.filter (fun a => key a == n) ++ [x]
      else l.filter (fun a => key a == n) := by
  induction l with
  | nil =>
    simp only [insertDescBy, List.filter_cons, List.filter_nil]
    split <;> simp
  | cons y ys ih =>
    rw [List.pairwise_cons] at h
    simp only [insertDescBy]
    split
    · rw [List.filter_cons, List.filter_cons, ih h.2]
      by_cases h1 : key y = n <;> by_cases h2 : key x = n <;> simp [h1, h2]
    · rename_i hxy
      have hyx : key y < key x := Nat.lt_of_not_le hxy
      rw [List.filter_cons]
      by_cases h2 : key x = n
      · have hemp : (y :: ys).filter (fun a => key a == n) = [] := by
          rw [List.filter_eq_nil_iff]
          intro z hz
          have hb : key z ≤ key y := by
            rcases List.mem_cons.mp hz with rfl | hz2
            · exact Nat.le_refl _
            · exact h.1 z hz2
          have hlt : key z < n := h2 ▸ Nat.lt_of_le_of_lt hb hyx
          simp [Nat.ne_of_lt hlt]
        simp [h2, hemp]
      · simp [h2]

theorem sortGo_sorted :
    ∀ (l acc : List α), acc.Pairwise (fun a b => key b ≤ key a) →
      (l.foldl (fun a x => insertDescBy key x a) acc).Pairwise (fun a b => key b ≤ key a) := by
  intro l
  induction l with
  | nil => intro acc h; simpa using h
  | cons x xs ih => intro acc h; exact ih _ (insertDescBy_sorted key x acc h)

theorem sortGo_perm :
    ∀ (l acc : List α), (l.foldl (fun a x => insertDescBy key x a) acc).Perm (acc ++ l) := by
  intro l
  induction l with
  | nil => intro acc; simp
  | cons x xs ih =>
    intro acc
    have h1 := ih (insertDescBy key x acc)
    have h2 : (insertDescBy key x acc ++ xs).Perm ((x :: acc) ++ xs) :=
      (insertDescBy_perm key x acc).append_right xs
    have h4 : (x :: (acc ++ xs)).Perm (acc ++ x :: xs) := List.perm_middle.symm
    exact (h1.trans h2).trans h4

theorem sortGo_filter (n : Nat) :
    ∀ (l acc : List α), acc.Pairwise (fun a b => key b ≤ key a) →
      (l.foldl (fun a x => insertDescBy key x a) acc).filter (fun a => key a == n) =
        acc.filter (fun a => key a == n) ++ l.filter (fun a => key a == n) := by
  intro l
  induction l with
  | nil => intro acc h; simp
  | cons x xs ih =>
    intro acc h
    rw [List.foldl_cons, ih _ (insertDescBy_sorted key x acc h),
      insertDescBy_filter key n x acc h, List.filter_cons]
    by_cases h2 : key x = n <;> simp [h2]

theorem sortDescBy_perm (l : List α) : (sortDescBy key l).Perm l := by
  simpa [sortDescBy] using sortGo_perm key l []

theorem sortDescBy_sorted (l : List α) :
    (sortDescBy key l).Pairwise (fun a b => key b ≤ key a) :=
  sortGo_sorted key l [] (by simp)

theorem sortDescBy_filter (n : Nat) (l : List α) :
    (sortDescBy key l).filter (fun a => key a == n) = l.filter (fun a => key a == n) := by
  simpa [sortDescBy] using sortGo_filter key n l [] (by simp)

theorem sorted_take_drop_le (l : List α)
    (h : l.Pairwise (fun a b => key b ≤ key a)) (k : Nat) :
    ∀ a ∈ l.take k, ∀ b ∈ l.drop k, key b ≤ key a := by
  have h2 : (l.take k ++ l.drop k).Pairwise (fun a b => key b ≤ key a) := by
    rw [List.take_append_drop]; exact h
  exact (List.pairwise_append.mp h2).2.2

end SortLemmas

/-! ## Properties of the defaultdict operations and the dependency graph -/

theorem lookupFst_multiAppend_self {β : Type} (m : List (String × List β)) (k : String) (v : β) :
    lookupFst (multiAppend m k v) k = some ((lookupFst m k).getD [] ++ [v]) := by
  induction m with
  | nil => simp [multiAppend, lookupFst]
  | cons e rest ih =>
    obtain ⟨k1, vs⟩ := e
    simp only [multiAppend]
    by_cases h : k1 = k
    · subst h; simp [lookupFst]
    · simp [lookupFst, h, ih]

theorem lookupFst_multiAppend_ne {β : Type} (m : List (String × List β)) (k : String) (v : β)
    (q : String) (h : q ≠ k) :
    lookupFst (multiAppend m k v) q = lookupFst m q := by
  induction m with
  | nil =>
    simp only [multiAppend, lookupFst]
    rw [if_neg (Ne.symm h)]
  | cons e rest ih =>
    obtain ⟨k1, vs⟩ := e
    simp only [multiAppend]
    by_cases h1 : k1 = k
    · rw [if_pos h1]
      have hne : ¬(k1 = q) := fun hk => h (hk.symm.trans h1)
      simp only [lookupFst, if_neg hne]
    · rw [if_neg h1]
      simp only [lookupFst]
      by_cases h2 : k1 = q
      · rw [if_pos h2, if_pos h2]
      · rw [if_neg h2, if_neg h2]; exact ih

theorem multiGet_multiAppend_self (m : List (String × List String)) (k v : String) :
    multiGet (multiAppend m k v) k = multiGet m k ++ [v] := by
  simp [multiGet, lookupFst_multiAppend_self]

theorem multiGet_multiAppend_ne (m : List (String × List String)) (k v q : String)
    (h : q ≠ k) : multiGet (multiAppend m k v) q = multiGet m q := by
  simp [multiGet, lookupFst_multiAppend_ne m k v q h]

theorem resolveImport_ne_self (mt : List (String × String)) (p tok t : String)
    (h : resolveImport mt p tok = some t) : t ≠ p := by
  unfold resolveImport at h
  cases heq : lookupFst mt tok with
  | none => rw [heq] at h; cases h
  | some u =>
    rw [heq] at h
    change (if u ≠ "" ∧ u ≠ p then some u else none) = some t at h
    by_cases hc : u ≠ "" ∧ u ≠ p
    · rw [if_pos hc] at h; cases h; exact hc.2
    · rw [if_neg hc] at h; cases h

theorem depAppendFile_cons (mt : List (String × String)) (deps : List (String × List String))
    (p tok : String) (rest : List String) :
    depAppendFile mt deps p (tok :: rest) =
      depAppendFile mt
        (match resolveImport mt p tok with
         | some t => multiAppend deps p t
         | none => deps) p rest := rfl

theorem multiGet_depAppendFile_self (mt : List (String × String)) (p : String) :
    ∀ (imps : List String) (deps : List (String × List String)),
      multiGet (depAppendFile mt deps p imps) p =
        multiGet deps p ++ imps.filterMap (resolveImport mt p) := by
  intro imps
  induction imps with
  | nil => intro deps; simp [depAppendFile]
  | cons tok rest ih =>
    intro deps
    rw [depAppendFile_cons]
    cases h : resolveImport mt p tok with
    | some t =>
      simp only [h, ih (multiAppend deps p t), multiGet_multiAppend_self,
        List.filterMap_cons, List.append_assoc, List.singleton_append]
    | none =>
      simp only [h, ih deps, List.filterMap_cons]

theorem multiGet_depAppendFile_ne (mt : List (String × String)) (p q : String) (h : q ≠ p) :
    ∀ (imps : List String) (deps : List (String × List String)),
      multiGet (depAppendFile mt deps p imps) q = multiGet deps q := by
  intro imps
  induction imps with
  | nil => intro deps; simp [depAppendFile]
  | cons tok rest ih =>
    intro deps
    rw [depAppendFile_cons]
    cases hr : resolveImport mt p tok with
    | some t => simp only [hr, ih (multiAppend deps p t), multiGet_multiAppend_ne _ _ _ _ h]
    | none => simp only [hr, ih deps]

theorem multiGet_buildFold_notmem (mt : List (String × String)) (p : String) :
    ∀ (pf : List (String × ParsedFile)) (deps : List (String × List String)),
      p ∉ pf.map Prod.fst →
      multiGet (pf.foldl (fun d e => depAppendFile mt d e.1 (e.2.imports.getD [])) deps) p =
        multiGet deps p := by
  intro pf
  induction pf with
  | nil => intro deps _; simp
  | cons e rest ih =>
    intro deps hmem
    simp only [List.map_cons, List.mem_cons] at hmem
    push_neg at hmem
    rw [List.foldl_cons, ih _ hmem.2, multiGet_depAppendFile_ne mt e.1 p hmem.1]

theorem multiGet_buildFold_mem (mt : List (String × String)) :
    ∀ (pf : List (String × ParsedFile)) (deps : List (String × List String))
      (p : String) (info : ParsedFile),
      (p, info) ∈ pf → (pf.map Prod.fst).Nodup →
      multiGet (pf.foldl (fun d e => depAppendFile mt d e.1 (e.2.imports.getD [])) deps) p =
        multiGet deps p ++ (info.imports.getD []).filterMap (resolveImport mt p) := by
  intro pf
  induction pf with
  | nil => intro deps p info hmem _; exact absurd hmem (by simp)
  | cons e rest ih =>
    intro deps p info hmem hnd
    simp only [List.map_cons, List.nodup_cons] at hnd
    rcases List.mem_cons.mp hmem with heq | hmem2
    · have he : e = (p, info) := heq.symm
      subst he
      rw [List.foldl_cons, multiGet_buildFold_notmem mt p rest _ hnd.1,
        multiGet_depAppendFile_self]
    · have hp : p ∈ rest.map Prod.fst := List.mem_map.mpr ⟨(p, info), hmem2, rfl⟩
      have hne : p ≠ e.1 := fun hpe => hnd.1 (hpe ▸ hp)
      rw [List.foldl_cons, ih _ p info hmem2 hnd.2,
        multiGet_depAppendFile_ne mt e.1 p hne]

theorem noSelf_depAppendFile (mt : List (String × String)) (p : String)
    (imps : List String) (deps : List (String × List String))
    (h : ∀ k, k ∉ multiGet deps k) : ∀ k, k ∉ multiGet (depAppendFile mt deps p imps) k := by
  intro k
  by_cases hk : k = p
  · subst hk
    rw [multiGet_depAppendFile_self]
    intro hmem
    rcases List.mem_append.mp hmem with hmem | hmem
    · exact h k hmem
    · obtain ⟨tok, _, heq⟩ := List.mem_filterMap.mp hmem
      exact resolveImport_ne_self mt k tok k heq rfl
  · rw [multiGet_depAppendFile_ne mt p k hk]
    exact h k

theorem noSelf_buildFold (mt : List (String × String)) :
    ∀ (pf : List (String × ParsedFile)) (deps : List (String × List String)),
      (∀ k, k ∉ multiGet deps k) →
      ∀ k, k ∉ multiGet (pf.foldl (fun d e => depAppendFile mt d e.1 (e.2.imports.getD [])) deps) k := by
  intro pf
  induction pf with
  | nil => intro deps h; exact h
  | cons e rest ih =>
    intro deps h
    exact ih _ (noSelf_depAppendFile mt e.1 _ deps h)

/-! ## Membership characterizations of the flattened edge structures -/

theorem mem_flatPairs (m : List (String × List String)) (s t : String) :
    (s, t) ∈ flatPairs m ↔ ∃ vs, (s, vs) ∈ m ∧ t ∈ vs := by
  simp only [flatPairs, List.mem_flatMap, List.mem_map]
  constructor
  · rintro ⟨e, he, x, hx, heq⟩
    rw [Prod.mk.injEq] at heq
    obtain ⟨h1, h2⟩ := heq
    subst h1; subst h2
    exact ⟨e.2, by simpa using he, hx⟩
  · rintro ⟨vs, hmem, ht⟩
    exact ⟨(s, vs), hmem, t, ht, rfl⟩

theorem flatPairs_cons (e : String × List String) (rest : List (String × List String)) :
    flatPairs (e :: rest) = e.2.map (fun t => (e.1, t)) ++ flatPairs rest := rfl

theorem mem_flatPairs_setAdd (m : List (String × List String)) (k v s t : String) :
    (s, t) ∈ flatPairs (setAdd m k v) ↔
      (s, t) ∈ flatPairs m ∨ (s = k ∧ t = v) := by
  induction m with
  | nil => simp [setAdd, flatPairs, Prod.mk.injEq]
  | cons e rest ih =>
    obtain ⟨k1, vs⟩ := e
    simp only [setAdd]
    by_cases h1 : k1 = k
    · subst h1
      rw [if_pos rfl]
      by_cases hv : v ∈ vs
      · rw [if_pos hv]
        constructor
        · exact Or.inl
        · intro h
          rcases h with h | ⟨hs, ht⟩
          · exact h
          · rw [flatPairs_cons]
            exact List.mem_append.mpr (Or.inl (List.mem_map.mpr ⟨v, hv, by rw [hs, ht]⟩))
      · rw [if_neg hv, flatPairs_cons, flatPairs_cons]
        constructor
        · intro h
          rcases List.mem_append.mp h with hm | hf
          · obtain ⟨x, hx, heq⟩ := List.mem_map.mp hm
            rcases List.mem_append.mp hx with hx2 | hx2
            · exact Or.inl (List.mem_append.mpr (Or.inl (List.mem_map.mpr ⟨x, hx2, heq⟩)))
            · rw [List.mem_singleton] at hx2
              subst hx2
              rw [Prod.mk.injEq] at heq
              exact Or.inr ⟨heq.1.symm, heq.2.symm⟩
          · exact Or.inl (List.mem_append.mpr (Or.inr hf))
        · intro h
          rcases h with h | ⟨hs, ht⟩
          · rcases List.mem_append.mp h with hm | hf
            · obtain ⟨x, hx, heq⟩ := List.mem_map.mp hm
              exact List.mem_append.mpr
                (Or.inl (List.mem_map.mpr ⟨x, List.mem_append.mpr (Or.inl hx), heq⟩))
            · exact List.mem_append.mpr (Or.inr hf)
          · exact List.mem_append.mpr
              (Or.inl (List.mem_map.mpr
                ⟨v, List.mem_append.mpr (Or.inr (List.mem_singleton.mpr rfl)), by rw [hs, ht]⟩))
    · rw [if_neg h1, flatPairs_cons, flatPairs_cons]
      constructor
      · intro h
        rcases List.mem_append.mp h with hm | hf
        · exact Or.inl (List.mem_append.mpr (Or.inl hm))
        · rcases ih.mp hf with h2 | h2
          · exact Or.inl (List.mem_append.mpr (Or.inr h2))
          · exact Or.inr h2
      · intro h
        rcases h with h | h2
        · rcases List.mem_append.mp h with hm | hf
          · exact List.mem_append.mpr (Or.inl hm)
          · exact List.mem_append.mpr (Or.inr (ih.mpr (Or.inl hf)))
        · exact List.mem_append.mpr (Or.inr (ih.mpr (Or.inr h2)))

theorem mem_flatPairs_archAddFile (f s t : String) :
    ∀ (ts : List String) (m : List (String × List String)),
      (s, t) ∈ flatPairs (archAddFile m f ts) ↔
        (s, t) ∈ flatPairs m ∨ ∃ g ∈ ts, dirOrRoot f = s ∧ dirOrRoot g = t ∧ s ≠ t := by
  intro ts
  induction ts with
  | nil => intro m; simp [archAddFile]
  | cons g gs ih =>
    intro m
    have hstep : archAddFile m f (g :: gs) =
        archAddFile (if dirOrRoot f ≠ dirOrRoot g then setAdd m (dirOrRoot f) (dirOrRoot g)
                     else m) f gs := rfl
    rw [hstep]
    by_cases hc : dirOrRoot f ≠ dirOrRoot g
    · rw [if_pos hc, ih _, mem_flatPairs_setAdd]
      constructor
      · rintro ((h | ⟨rfl, rfl⟩) | ⟨g2, hg2, h1, h2, h3⟩)
        · exact Or.inl h
        · exact Or.inr ⟨g, List.mem_cons_self g gs, rfl, rfl, hc⟩
        · exact Or.inr ⟨g2, List.mem_cons_of_mem _ hg2, h1, h2, h3⟩
      · rintro (h | ⟨g2, hg2, h1, h2, h3⟩)
        · exact Or.inl (Or.inl h)
        · rcases List.mem_cons.mp hg2 with rfl | hg2b
          · exact Or.inl (Or.inr ⟨h1.symm, h2.symm⟩)
          · exact Or.inr ⟨g2, hg2b, h1, h2, h3⟩
    · rw [if_neg hc, ih m]
      push_neg at hc
      constructor
      · rintro (h | ⟨g2, hg2, h1, h2, h3⟩)
        · exact Or.inl h
        · exact Or.inr ⟨g2, List.mem_cons_of_mem _ hg2, h1, h2, h3⟩
      · rintro (h | ⟨g2, hg2, h1, h2, h3⟩)
        · exact Or.inl h
        · rcases List.mem_cons.mp hg2 with rfl | hg2b
          · exact absurd (h1.symm.trans (hc.trans h2)) h3
          · exact Or.inr ⟨g2, hg2b, h1, h2, h3⟩

theorem mem_archFold (s t : String) :
    ∀ (deps : List (String × List String)) (m : List (String × List String)),
      (s, t) ∈ flatPairs (deps.foldl (fun m e => archAddFile m e.1 e.2) m) ↔
        (s, t) ∈ flatPairs m ∨
          ∃ e ∈ deps, ∃ g ∈ e.2, dirOrRoot e.1 = s ∧ dirOrRoot g = t ∧ s ≠ t := by
  intro deps
  induction deps with
  | nil => intro m; simp
  | cons e rest ih =>
    intro m
    rw [List.foldl_cons, ih (archAddFile m e.1 e.2), mem_flatPairs_archAddFile]
    constructor
    · rintro ((h | h) | ⟨p, hp, hP⟩)
      · exact Or.inl h
      · exact Or.inr ⟨e, List.mem_cons_self e rest, h⟩
      · exact Or.inr ⟨p, List.mem_cons_of_mem _ hp, hP⟩
    · rintro (h | ⟨p, hp, hP⟩)
      · exact Or.inl (Or.inl h)
      · rcases List.mem_cons.mp hp with rfl | hp2
        · exact Or.inl (Or.inr hP)
        · exact Or.inr ⟨p, hp2, hP⟩

theorem mem_archModuleDeps (deps : List (String × List String)) (s t : String) :
    (s, t) ∈ flatPairs (archModuleDeps deps) ↔
      ∃ e ∈ deps, ∃ g ∈ e.2, dirOrRoot e.1 = s ∧ dirOrRoot g = t ∧ s ≠ t := by
  have h := mem_archFold s t deps []
  simpa [flatPairs] using h

/-! ## Behaviour of the pattern scanners on a well-formed route call -/

theorem matchLit_append (lit r : List Char) : matchLit lit (lit ++ r) = some r := by
  induction lit with
  | nil => rfl
  | cons c cs ih => simp [matchLit, ih]

theorem matchLit_ne_head (l : Char) (ls : List Char) (c : Char) (cs : List Char)
    (h : c ≠ l) : matchLit (l :: ls) (c :: cs) = none := by
  simp [matchLit, h]

theorem takeWhile_append_stop {α : Type} (P : α → Bool) (xs : List α) (y : α) (ys : List α)
    (hxs : ∀ c ∈ xs, P c = true) (hy : P y = false) :
    (xs ++ y :: ys).takeWhile P = xs := by
  induction xs with
  | nil => simp [List.takeWhile_cons, hy]
  | cons x xs2 ih =>
    have hx : P x = true := hxs x (by simp)
    simp [List.takeWhile_cons, hx, ih (fun c hc => hxs c (by simp [hc]))]

theorem dropWhile_append_stop {α : Type} (P : α → Bool) (xs : List α) (y : α) (ys : List α)
    (hxs : ∀ c ∈ xs, P c = true) (hy : P y = false) :
    (xs ++ y :: ys).dropWhile P = y :: ys := by
  induction xs with
  | nil => simp [List.dropWhile_cons, hy]
  | cons x xs2 ih =>
    have hx : P x = true := hxs x (by simp)
    simp [List.dropWhile_cons, hx, ih (fun c hc => hxs c (by simp [hc]))]

theorem scanWithF_succ_some {α : Type} (m : List Char → Option (α × List Char))
    (cs : List Char) (a : α) (rest : List Char) (n : Nat) (h : m cs = some (a, rest)) :
    scanWithF m (n + 1) cs = a :: scanWithF m n rest := by
  simp [scanWithF, h]

theorem scanWithF_succ_none {α : Type} (m : List Char → Option (α × List Char))
    (c : Char) (t : List Char) (n : Nat) (h : m (c :: t) = none) :
    scanWithF m (n + 1) (c :: t) = scanWithF m n t := by
  simp [scanWithF, h]

theorem scanWithF_nil {α : Type} (m : List Char → Option (α × List Char))
    (hm : m [] = none) : ∀ n, scanWithF m n [] = [] := by
  intro n
  cases n with
  | zero => rfl
  | succ k => simp [scanWithF, hm]

theorem quoteCapAt_shape (p post : List Char) (hp : p ≠ [])
    (hpq : ∀ c ∈ p, isQuoteCh c = false) :
    quoteCapAt (sq :: (p ++ sq :: post)) = some (p, post) := by
  have hnq : ∀ c ∈ p, (!isQuoteCh c) = true := fun c hc => by rw [hpq c hc]; rfl
  have hsq : (!isQuoteCh sq) = false := by decide
  simp only [quoteCapAt]
  rw [if_pos (by decide : isQuoteCh sq = true),
    takeWhile_append_stop _ p sq post hnq hsq]
  rw [if_neg (fun h => hp (List.isEmpty_iff.mp h))]
  rw [List.drop_left]
  simp
  decide

theorem expressContAt_shape (w p post : List Char) (hw : w ≠ [])
    (hwl : ∀ c ∈ w, isLowerAZ c = true) (hp : p ≠ [])
    (hpq : ∀ c ∈ p, isQuoteCh c = false) :
    expressContAt (w ++ '(' :: sq :: (p ++ sq :: post)) = some ((w, p), post) := by
  simp only [expressContAt]
  rw [takeWhile_append_stop isLowerAZ w '(' _ hwl (by decide)]
  rw [if_neg (fun h => hw (List.isEmpty_iff.mp h))]
  rw [dropWhile_append_stop isLowerAZ w '(' _ hwl (by decide)]
  rw [List.dropWhile_cons, if_neg (by decide : ¬(pyIsSpace '(' = true))]
  simp [quoteCapAt_shape p post hp hpq]

theorem expressRouteMatchAt_call (recv : List Char)
    (hrecv : recv = "app.".data ∨ recv = "router.".data) (w p post : List Char)
    (hw : w ≠ []) (hwl : ∀ c ∈ w, isLowerAZ c = true) (hp : p ≠ [])
    (hpq : ∀ c ∈ p, isQuoteCh c = false) :
    expressRouteMatchAt (recv ++ (w ++ '(' :: sq :: (p ++ sq :: post))) =
      some ((w, p), post) := by
  rcases hrecv with rfl | rfl
  · simp only [expressRouteMatchAt, matchLit_append]
    exact expressContAt_shape w p post hw hwl hp hpq
  · have hne : matchLit "app.".data ("router.".data ++ (w ++ '(' :: sq :: (p ++ sq :: post)))
        = none := by
      rw [show ("router.".data ++ (w ++ '(' :: sq :: (p ++ sq :: post)))
            = 'r' :: ("outer.".data ++ (w ++ '(' :: sq :: (p ++ sq :: post))) from rfl]
      exact matchLit_ne_head 'a' _ 'r' _ (by decide)
    simp only [expressRouteMatchAt, hne, matchLit_append]
    exact expressContAt_shape w p post hw hwl hp hpq

theorem expressEndpoints_call (recv : List Char)
    (hrecv : recv = "app.".data ∨ recv = "router.".data) (w p : List Char)
    (hw : w ≠ []) (hwl : ∀ c ∈ w, isLowerAZ c = true) (hp : p ≠ [])
    (hpq : ∀ c ∈ p, isQuoteCh c = false) :
    expressEndpoints (recv ++ (w ++ '(' :: sq :: (p ++ [sq, ')']))) =
      [{ path := String.mk p, methods := [String.mk (w.map Char.toUpper)],
         etype := "Express" }] := by
  have hscanNil : ∀ n, scanWithF expressRouteMatchAt n [] = [] :=
    scanWithF_nil _ (by decide)
  have hscanClose : ∀ n, scanWithF expressRouteMatchAt n [')'] = [] := by
    intro n
    cases n with
    | zero => rfl
    | succ k =>
      rw [scanWithF_succ_none _ _ _ _ (by decide : expressRouteMatchAt [')'] = none)]
      exact hscanNil k
  have hmatch := expressRouteMatchAt_call recv hrecv w p [')'] hw hwl hp hpq
  unfold expressEndpoints reFindAll
  rw [scanWithF_succ_some _ _ _ _ _ hmatch, hscanClose]
  rfl

/-! ## Concrete inputs used by the claim theorems -/

/-- The two-file snapshot of the specification scenario. -/
def scenarioRepo : Repository :=
  { metadata := "meta"
    files := [("a.py", "import b\nclass X(Y): pass\ndef f(): pass"),
              ("b.py", "class Y: pass")]
    path := "repo" }

/-- A parsed Python file importing the same target under two spellings. -/
def c2FileA : ParsedFile :=
  { path := "a.py", language := "Python", summary := none
    imports := some ["pkg.b", "b"], classes := some [], functions := some []
    endpoints := some [], loc := some 1, ftype := "source" }

/-- The imported Python file of the duplicate-edge input. -/
def c2FileB : ParsedFile :=
  { path := "pkg/b.py", language := "Python", summary := none
    imports := some [], classes := some [], functions := some []
    endpoints := some [], loc := some 1, ftype := "source" }

/-- A parsed-file mapping in which two distinct import tokens of `a.py`
resolve to the same file. -/
def c2Input : List (String × ParsedFile) := [("pkg/b.py", c2FileB), ("a.py", c2FileA)]

/-- An analysis whose dependency mapping has three source entries of outgoing
counts 1, 1 and 2, with the tied sources in descending path order. -/
def c4Input : RepositoryAnalysis :=
  { metadata := "", parsed_files := [], statistics := ⟨0, [], [], 0⟩, repository_path := ""
    dependencies := [("b.py", ["t.py"]), ("a.py", ["t.py"]), ("c.py", ["t1.py", "t2.py"])] }

/-- An analysis with three directories (2, 1 and 1 files) and one dependency
whose source lives in the directory that a cap of two drops. -/
def c5Input : RepositoryAnalysis :=
  { metadata := "", statistics := ⟨0, [], [], 0⟩, repository_path := ""
    parsed_files :=
      [("d1/f1.py", parse_file "d1/f1.py" "x = 1"),
       ("d1/f2.py", parse_file "d1/f2.py" "x = 2"),
       ("d2/g.py", parse_file "d2/g.py" "x = 3"),
       ("d3/h.py", parse_file "d3/h.py" "x = 4")]
    dependencies := [("d3/h.py", ["d1/f1.py"])] }

/-- An analysis with two files that each own one Flask endpoint. -/
def c6Input : RepositoryAnalysis :=
  { metadata := "", statistics := ⟨0, [], [], 0⟩, repository_path := ""
    parsed_files :=
      [("x.py",
        { path := "x.py", language := "Python", summary := none
          imports := some [], classes := some [], functions := some []
          endpoints := some [{ path := "/a", methods := ["GET"], etype := "Flask" }]
          loc := some 1, ftype := "source" }),
       ("y.py",
        { path := "y.py", language := "Python", summary := none
          imports := some [], classes := some [], functions := some []
          endpoints := some [{ path := "/b", methods := ["GET"], etype := "Flask" }]
          loc := some 1, ftype := "source" })]
    dependencies := [] }

/-! ## The claims -/

set_option maxRecDepth 4096

/-- Claim C1.  The spec scenario asserts that for the snapshot
`{"a.py": "import b\nclass X(Y): pass\ndef f(): pass", "b.py": "class Y: pass"}`
the pipeline yields `imports == ["b"]` for `a.py`, the single class `X` with
parent `Y`, and exactly one dependency edge `("a.py", "b.py")`.  The class
facts hold, but the greedy character class of the first import recognizer
contains `\s` and therefore runs across the newline: the captured and
stripped token is `"b\nclass X"`, which resolves to no file, so the
dependency mapping is empty.  This theorem evaluates the translated pipeline
at that failing input; the classes conjunct is the only part of the claim the
code satisfies. -/
theorem c1_pipeline_snapshot_behavior :
    ((lookupFst (parse_repository scenarioRepo none).parsed_files "a.py").map
        (fun f => (f.imports, f.classes))
      = some (some ["b\nclass X"], some [{ name := "X", parent_classes := ["Y"] }])) ∧
    ((lookupFst (parse_repository scenarioRepo none).parsed_files "b.py").map
        (fun f => (f.imports, f.classes))
      = some (some [], some [{ name := "Y", parent_classes := [] }])) ∧
    (parse_repository scenarioRepo none).dependencies = [] := by
  decide

/-- Counterexample to claim C2.  Two distinct import tokens of `a.py`
(`pkg.b` and `b`) both resolve to `pkg/b.py`, and the edge list records the
ordered pair twice: the source appends without deduplication, so an ordered
pair does not occur at most once. -/
theorem c2_duplicate_edge_cex :
    build_dependency_graph c2Input = [("a.py", ["pkg/b.py", "pkg/b.py"])] ∧
    (multiGet (build_dependency_graph c2Input) "a.py").count "pkg/b.py" = 2 := by
  decide

/-- Claim C2, amended.  The edge list of a file is exactly one entry per
resolvable import token, in token order, with no deduplication: the
multiplicity of a target equals the number of import tokens resolving to it
(self-targets and falsy targets excluded). -/
theorem c2_edge_multiplicity (pf : List (String × ParsedFile)) (p : String)
    (info : ParsedFile) (hmem : (p, info) ∈ pf) (hnd : (pf.map Prod.fst).Nodup) :
    multiGet (build_dependency_graph pf) p =
      (info.imports.getD []).filterMap (resolveImport (module_to_file pf) p) := by
  have h := multiGet_buildFold_mem (module_to_file pf) pf [] p info hmem hnd
  have hnilget : multiGet ([] : List (String × List String)) p = [] := rfl
  rw [hnilget, List.nil_append] at h
  exact h

/-- Witness for the amended claim C2 at the duplicate-edge input. -/
theorem c2_edge_multiplicity_wit :
    multiGet (build_dependency_graph c2Input) "a.py" =
      (c2FileA.imports.getD []).filterMap (resolveImport (module_to_file c2Input) "a.py") :=
  c2_edge_multiplicity c2Input "a.py" c2FileA (by decide) (by decide)

/-- Counterexample to claim C3.  Constructing the renderer with the supported
grammar `mermaid` and the non-positive bound `0` (or `graphviz` and `-5`)
succeeds: the constructor validates only the grammar name, never
`maxElements`, so construction does not fail fast on a non-positive bound. -/
theorem c3_nonpositive_max_accepted_cex :
    diagramGeneratorInit "mermaid" 0 =
      Except.ok { format := "mermaid", max_elements := 0 } ∧
    diagramGeneratorInit "graphviz" (-5) =
      Except.ok { format := "graphviz", max_elements := -5 } :=
  ⟨rfl, rfl⟩

/-- Claim C3, amended.  Construction raises the descriptive `ValueError` if
and only if the lower-cased grammar is not one of the two supported values;
`maxElements` is stored unvalidated, whatever its sign. -/
theorem c3_init_validation (format : String) (me : Int) :
    ((∃ g, diagramGeneratorInit format me = Except.ok g) ↔
      (String.mk (format.data.map Char.toLower) = "mermaid" ∨
       String.mk (format.data.map Char.toLower) = "graphviz")) ∧
    (∀ e, diagramGeneratorInit format me = Except.error e →
      e = "Unsupported diagram format: " ++ format) ∧
    (∀ g, diagramGeneratorInit format me = Except.ok g →
      g.format = String.mk (format.data.map Char.toLower) ∧ g.max_elements = me) := by
  by_cases h : (String.mk (format.data.map Char.toLower) = "mermaid" ∨
      String.mk (format.data.map Char.toLower) = "graphviz")
  · simp only [diagramGeneratorInit, if_pos h]
    refine ⟨⟨fun _ => h, fun _ => ⟨_, rfl⟩⟩, fun e he => ?_, fun g hg => ?_⟩
    · cases he
    · cases hg
      exact ⟨rfl, rfl⟩
  · simp only [diagramGeneratorInit, if_neg h]
    refine ⟨⟨fun ⟨g, hg⟩ => ?_, fun hc => absurd hc h⟩, fun e he => ?_, fun g hg => ?_⟩
    · cases hg
    · injection he with h2
      exact h2.symm
    · cases hg

/-- Claim C7.  In this embedding both pipeline stages are pure functions, so
equal snapshots, equal allow-lists and an equal generator give byte-identical
analyses and byte-identical diagram texts.  (The claim fails on the shipped
code for a different reason: the generator module itself is not importable,
see the f-string note on the class serializer.) -/
theorem c7_pipeline_deterministic (r1 r2 : Repository) (s1 s2 : Option (List String))
    (g : DiagramGenerator) (hr : r1 = r2) (hs : s1 = s2) :
    parse_repository r1 s1 = parse_repository r2 s2 ∧
    generate_diagrams g (parse_repository r1 s1) =
      generate_diagrams g (parse_repository r2 s2) := by
  subst hr
  subst hs
  exact ⟨rfl, rfl⟩

/-- Witness for claim C7 at the scenario snapshot with the mermaid grammar. -/
theorem c7_pipeline_deterministic_wit :
    parse_repository scenarioRepo none = parse_repository scenarioRepo none ∧
    generate_diagrams { format := "mermaid", max_elements := 100 }
        (parse_repository scenarioRepo none) =
      generate_diagrams { format := "mermaid", max_elements := 100 }
        (parse_repository scenarioRepo none) :=
  c7_pipeline_deterministic scenarioRepo scenarioRepo none none
    { format := "mermaid", max_elements := 100 } rfl rfl

/-- Claim C8.  A file whose content is the binary sentinel or whose detected
language is `Unknown` is skipped: the result carries the summary and the
`binary`/`unknown` kind marker, no error, and its extraction fields are
absent, so every consumer reading them with an empty default sees empty
imports, types, callables and endpoints. -/
theorem c8_skipped_files_empty_facts (fp content : String)
    (h : content = binarySentinel ∨ detect_language fp content = "Unknown") :
    (parse_file fp content).imports.getD [] = [] ∧
    (parse_file fp content).classes.getD [] = [] ∧
    (parse_file fp content).functions.getD [] = [] ∧
    (parse_file fp content).endpoints.getD [] = [] ∧
    (parse_file fp content).summary = some "Binary file or unknown format" ∧
    ((parse_file fp content).ftype = "binary" ∨ (parse_file fp content).ftype = "unknown") ∧
    (parse_file fp content).imports = none ∧
    (parse_file fp content).classes = none ∧
    (parse_file fp content).functions = none ∧
    (parse_file fp content).endpoints = none := by
  unfold parse_file
  rw [if_pos h]
  refine ⟨rfl, rfl, rfl, rfl, rfl, ?_, rfl, rfl, rfl, rfl⟩
  by_cases hb : content = binarySentinel
  · exact Or.inl (by rw [if_pos hb])
  · exact Or.inr (by rw [if_neg hb])

/-- Witness for claim C8: an unknown-extension text file and a binary
sentinel under a known extension. -/
theorem c8_skipped_files_empty_facts_wit :
    ((parse_file "data.xyz" "hello").imports.getD [] = [] ∧
     (parse_file "data.xyz" "hello").classes.getD [] = [] ∧
     (parse_file "data.xyz" "hello").functions.getD [] = [] ∧
     (parse_file "data.xyz" "hello").endpoints.getD [] = [] ∧
     (parse_file "data.xyz" "hello").summary = some "Binary file or unknown format" ∧
     ((parse_file "data.xyz" "hello").ftype = "binary" ∨
      (parse_file "data.xyz" "hello").ftype = "unknown") ∧
     (parse_file "data.xyz" "hello").imports = none ∧
     (parse_file "data.xyz" "hello").classes = none ∧
     (parse_file "data.xyz" "hello").functions = none ∧
     (parse_file "data.xyz" "hello").endpoints = none) ∧
    (parse_file "a.py" binarySentinel).ftype = "binary" :=
  ⟨c8_skipped_files_empty_facts "data.xyz" "hello" (Or.inr (by decide)),
   ((c8_skipped_files_empty_facts "a.py" binarySentinel (Or.inl rfl)).2.2.2.2.2.1).resolve_right
     (by decide)⟩

/-- Claim C9.  The dependency graph never records a self-edge: a symbol-table
hit equal to the importing file is discarded before the append, so for every
parsed-file mapping and every path the edge list of that path does not
contain the path itself. -/
theorem c9_no_self_edges (pf : List (String × ParsedFile)) (p : String) :
    p ∉ multiGet (build_dependency_graph pf) p := by
  have h : build_dependency_graph pf =
      pf.foldl (fun deps e => depAppendFile (module_to_file pf) deps e.1
        (e.2.imports.getD [])) [] := rfl
  rw [h]
  exact noSelf_buildFold (module_to_file pf) pf []
    (fun k hk => by simp [multiGet, lookupFst] at hk) p

/-- Counterexample to claim C4.  The dependency mapping of `c4Input` has four
edges, more than the cap of two, and its two tied sources (`b.py` and `a.py`,
one outgoing edge each) are kept by insertion order: the rendered edges keep
`b.py` and drop `a.py`, while a path-ascending tie-break would keep `a.py`.
Moreover the truncation fired because the mapping has three source entries;
with one source owning all four edges nothing would be dropped. -/
theorem c4_tiebreak_cex :
    (flatPairs c4Input.dependencies).length = 4 ∧
    depEdgesMermaid c4Input 2 =
      [("c.py", "t1.py"), ("c.py", "t2.py"), ("b.py", "t.py")] ∧
    ("b.py", "t.py") ∈ depEdgesMermaid c4Input 2 ∧
    ("a.py", "t.py") ∉ depEdgesMermaid c4Input 2 := by
  decide

/-- Claim C4, amended.  Dependency-diagram truncation is triggered by the
number of source entries (not by the edge count): with at most `maxElements`
sources nothing is dropped; otherwise exactly `maxElements.toNat` sources are
kept, namely a stable descending selection by outgoing-edge count in which
every kept source has at least as many outgoing edges as every dropped one
and ties keep their insertion order (the filter equation), and the rendered
edges are exactly the edges of the kept sources. -/
theorem c4_truncation_rule (pd : RepositoryAnalysis) (me : Int) (hme : 0 ≤ me) :
    ((pd.dependencies.length : Int) ≤ me → depKeptEntries pd me = pd.dependencies) ∧
    (me < (pd.dependencies.length : Int) →
      depKeptEntries pd me =
          (sortDescBy (fun e => e.2.length) pd.dependencies).take me.toNat ∧
        (depKeptEntries pd me).length = me.toNat ∧
        (∀ a ∈ depKeptEntries pd me,
         ∀ b ∈ (sortDescBy (fun e => e.2.length) pd.dependencies).drop me.toNat,
           b.2.length ≤ a.2.length)) ∧
    (sortDescBy (fun e => e.2.length) pd.dependencies).Perm pd.dependencies ∧
    (∀ n, (sortDescBy (fun e => e.2.length) pd.dependencies).filter
        (fun e => e.2.length == n) =
      pd.dependencies.filter (fun e => e.2.length == n)) ∧
    (∀ s t, (s, t) ∈ depEdgesMermaid pd me ↔
      ∃ ts, (s, ts) ∈ depKeptEntries pd me ∧ t ∈ ts) := by
  refine ⟨?_, ?_, sortDescBy_perm _ _, fun n => sortDescBy_filter _ n _,
    fun s t => mem_flatPairs _ s t⟩
  · intro hle
    unfold depKeptEntries
    rw [if_neg (not_lt.mpr hle)]
  · intro hgt
    have hkept : depKeptEntries pd me =
        (sortDescBy (fun e => e.2.length) pd.dependencies).take me.toNat := by
      unfold depKeptEntries
      rw [if_pos hgt]
      unfold pySliceTo
      rw [if_neg (not_lt.mpr hme)]
    have hlen : (sortDescBy (fun e => e.2.length) pd.dependencies).length
        = pd.dependencies.length := (sortDescBy_perm _ _).length_eq
    have htn : me.toNat < pd.dependencies.length := (Int.toNat_lt hme).mpr hgt
    refine ⟨hkept, ?_, ?_⟩
    · rw [hkept, List.length_take, hlen]
      exact Nat.min_eq_left (Nat.le_of_lt htn)
    · intro a ha b hb
      rw [hkept] at ha
      exact sorted_take_drop_le (fun e => e.2.length) _ (sortDescBy_sorted _ _) me.toNat a ha b hb

/-- Witness for the amended claim C4: at the concrete tie-break input with a
cap of two, the truncated mapping keeps exactly two sources. -/
theorem c4_truncation_rule_wit :
    (depKeptEntries c4Input 2).length = (2 : Int).toNat :=
  ((c4_truncation_rule c4Input 2 (by decide)).2.1 (by decide)).2.1

/-- Counterexample to claim C5.  With a cap of two the architecture diagram
of `c5Input` keeps the modules `d1` and `d2` and drops `d3`, yet it still
renders the edge from `d3` to `d1`: module edges are computed from the full
dependency mapping and never restricted to the kept modules. -/
theorem c5_dropped_module_edge_cex :
    archNodesMermaid c5Input 2 = [("d1", 2), ("d2", 1)] ∧
    ("d3", "d1") ∈ archEdgesMermaid c5Input ∧
    ("d3", 1) ∉ archNodesMermaid c5Input 2 := by
  decide

/-- Claim C5, amended.  Architecture-diagram truncation keeps exactly
`maxElements.toNat` modules, a stable descending selection by member-file
count (ties keep insertion order, per the filter equation); the module edges,
however, are the projection of the full dependency mapping with self-module
pairs removed, independent of the cap, so edges touching dropped modules can
be rendered. -/
theorem c5_module_truncation_rule (pd : RepositoryAnalysis) (me : Int) (hme : 0 ≤ me) :
    (((archModules pd.parsed_files).length : Int) ≤ me →
      archKeptModules pd me = archModules pd.parsed_files) ∧
    (me < ((archModules pd.parsed_files).length : Int) →
      archKeptModules pd me =
          (sortDescBy (fun e => e.2.length) (archModules pd.parsed_files)).take me.toNat ∧
        (archNodesMermaid pd me).length = me.toNat ∧
        (∀ a ∈ archKeptModules pd me,
         ∀ b ∈ (sortDescBy (fun e => e.2.length) (archModules pd.parsed_files)).drop me.toNat,
           b.2.length ≤ a.2.length)) ∧
    (sortDescBy (fun e => e.2.length) (archModules pd.parsed_files)).Perm
      (archModules pd.parsed_files) ∧
    (∀ n, (sortDescBy (fun e => e.2.length) (archModules pd.parsed_files)).filter
        (fun e => e.2.length == n) =
      (archModules pd.parsed_files).filter (fun e => e.2.length == n)) ∧
    (∀ s t, (s, t) ∈ archEdgesMermaid pd ↔
      ∃ e ∈ pd.dependencies, ∃ g ∈ e.2, dirOrRoot e.1 = s ∧ dirOrRoot g = t ∧ s ≠ t) := by
  refine ⟨?_, ?_, sortDescBy_perm _ _, fun n => sortDescBy_filter _ n _,
    fun s t => mem_archModuleDeps pd.dependencies s t⟩
  · intro hle
    unfold archKeptModules
    rw [if_neg (not_lt.mpr hle)]
  · intro hgt
    have hkept : archKeptModules pd me =
        (sortDescBy (fun e => e.2.length) (archModules pd.parsed_files)).take me.toNat := by
      unfold archKeptModules
      rw [if_pos hgt]
      unfold pySliceTo
      rw [if_neg (not_lt.mpr hme)]
    have hlen : (sortDescBy (fun e => e.2.length) (archModules pd.parsed_files)).length
        = (archModules pd.parsed_files).length := (sortDescBy_perm _ _).length_eq
    have htn : me.toNat < (archModules pd.parsed_files).length := (Int.toNat_lt hme).mpr hgt
    refine ⟨hkept, ?_, ?_⟩
    · rw [show archNodesMermaid pd me
          = (archKeptModules pd me).map (fun e => (e.1, e.2.length)) from rfl,
        List.length_map, hkept, List.length_take, hlen]
      exact Nat.min_eq_left (Nat.le_of_lt htn)
    · intro a ha b hb
      rw [hkept] at ha
      exact sorted_take_drop_le (fun e => e.2.length) _ (sortDescBy_sorted _ _) me.toNat a ha b hb

/-- Witness for the amended claim C5: at the concrete dropped-module input
with a cap of two, the rendered architecture diagram has exactly two module
nodes. -/
theorem c5_module_truncation_rule_wit :
    (archNodesMermaid c5Input 2).length = (2 : Int).toNat :=
  ((c5_module_truncation_rule c5Input 2 (by decide)).2.1 (by decide)).2.1

/-- Counterexample to claim C6.  On an analysis with two Flask files the
graphviz api renderer emits a framework chain edge between the files while
the mermaid api renderer emits no relation at all, so the two grammars do not
express identical edge sets for the api kind. -/
theorem c6_api_edges_differ_cex :
    apiEdgesGraphviz c6Input 100 = [("x.py", "y.py")] ∧
    apiEdgesMermaid c6Input 100 = [] ∧
    apiEdgesGraphviz c6Input 100 ≠ apiEdgesMermaid c6Input 100 := by
  decide

/-- Claim C6, amended.  For the architecture, class and dependency kinds the
two grammars compute identical node lists and identical edge lists (the
source duplicates the computation verbatim), and the api node lists agree;
only the api edge sets differ, as the counterexample shows. -/
theorem c6_grammar_graph_equivalence (pd : RepositoryAnalysis) (me : Int) :
    archNodesMermaid pd me = archNodesGraphviz pd me ∧
    archEdgesMermaid pd = archEdgesGraphviz pd ∧
    classNodesMermaid pd me = classNodesGraphviz pd me ∧
    classEdgesMermaid pd me = classEdgesGraphviz pd me ∧
    depNodesMermaid pd me = depNodesGraphviz pd me ∧
    depEdgesMermaid pd me = depEdgesGraphviz pd me ∧
    apiNodesMermaid pd me = apiNodesGraphviz pd me :=
  ⟨rfl, rfl, rfl, rfl, rfl, rfl, rfl⟩

/-- Claim C10.  For JavaScript or TypeScript content consisting of a call
`app.<word>(<quoted path>)` or `router.<word>(<quoted path>)`, with `<word>`
any non-empty run of lower-case letters and the path any non-empty quote-free
string, the extractor yields exactly one Express endpoint whose methods list
is the single upper-cased word — so non-HTTP calls such as `app.use` or
`app.listen` yield methods `USE` or `LISTEN` instead of being ignored. -/
theorem c10_express_method_uppercase (w p : List Char)
    (hw : w ≠ []) (hwl : ∀ c ∈ w, isLowerAZ c = true)
    (hp : p ≠ []) (hpq : ∀ c ∈ p, isQuoteCh c = false)
    (language : String) (hlang : language = "JavaScript" ∨ language = "TypeScript")
    (recv : List Char) (hrecv : recv = "app.".data ∨ recv = "router.".data) :
    extract_api_endpoints (String.mk (recv ++ (w ++ '(' :: sq :: (p ++ [sq, ')'])))) language =
      [{ path := String.mk p, methods := [String.mk (w.map Char.toUpper)],
         etype := "Express" }] := by
  have hdata : (String.mk (recv ++ (w ++ '(' :: sq :: (p ++ [sq, ')'])))).data
      = recv ++ (w ++ '(' :: sq :: (p ++ [sq, ')'])) := rfl
  unfold extract_api_endpoints
  rw [hdata]
  rcases hlang with rfl | rfl
  · rw [if_neg (by decide : ¬("JavaScript" = "Python")),
      if_pos (Or.inl rfl : "JavaScript" = "JavaScript" ∨ "JavaScript" = "TypeScript"),
      List.nil_append]
    exact expressEndpoints_call recv hrecv w p hw hwl hp hpq
  · rw [if_neg (by decide : ¬("TypeScript" = "Python")),
      if_pos (Or.inr rfl : "TypeScript" = "JavaScript" ∨ "TypeScript" = "TypeScript"),
      List.nil_append]
    exact expressEndpoints_call recv hrecv w p hw hwl hp hpq

/-- Witness for claim C10: `app.use` yields the single method `USE`. -/
theorem c10_express_method_uppercase_wit :
    extract_api_endpoints "app.use('/static')" "JavaScript" =
      [{ path := "/static", methods := ["USE"], etype := "Express" }] :=
  c10_express_method_uppercase "use".data "/static".data (by decide) (by decide)
    (by decide) (by decide) "JavaScript" (Or.inl rfl) "app.".data (Or.inl rfl)

end UnMessy
